import Mathlib

/-!
Verification of `ignite/distributed/comp_models/base.py`:
a shallow embedding of `ComputationModel` (string codec, `_apply_op`,
`_collective_op`, `all_reduce`, `broadcast`, `_setup_attrs`) and of the
single-process `_SerialModel`, with theorems settling the spec claims.

Machine conventions of the embedding:
* a torch tensor is modelled as a flat list of `Int` element values plus a
  dtype tag and a device tag (no shape beyond what the claims need; the
  encoded-string batch of shape `(n, 1025)` is recovered by chunking the
  flat data into rows of 1025);
* Python strings are lists of Unicode code points (`List Nat`), valid when
  below 0x110000 and not surrogates, exactly the values a `Char` may hold;
* `bytearray(x, "utf-8")` is the standard UTF-8 encoding, implemented here
  over code points; `bytes.decode("utf-8")` is the strict UTF-8 decoder;
* fallible Python code returns `Except PyErr`;
* the side effects of `_apply_op` (device moves, dtype casts, the backend
  primitive call) are recorded in an explicit event trace, so that claims
  about "which operations ran" (e.g. reversal on failure, no primitive
  invoked) are observable;
* numeric value rounding under dtype casts is not modelled: a dtype cast
  changes the dtype tag only.  All claims below are about dtypes, devices,
  shapes and exact integer/string payloads, never about float rounding.
-/

namespace IgniteBase

/-- Torch dtypes that appear in `base.py` (`torch.long` is `int64`,
`torch.float` is `float32`), plus the other dtypes needed to talk about
"floating" vs "integer" buffers. -/
inductive DType
  | uint8 | int8 | int16 | int32 | int64
  | float16 | bfloat16 | float32 | float64
  deriving DecidableEq, Repr

/-- `torch.Tensor.dtype.is_floating_point`: the floating dtypes. -/
def DType.isFloating : DType → Bool
  | .float16 | .bfloat16 | .float32 | .float64 => true
  | _ => false

/-- Compute devices; the index is irrelevant to `base.py`, only equality of
devices is tested (`tensor.device != device`). -/
inductive Device
  | cpu | cuda
  deriving DecidableEq, Repr

/-- A torch tensor: flat element data with a dtype and a device tag. -/
structure Tensor where
  data : List Int
  dtype : DType
  device : Device
  deriving DecidableEq, Repr

/-- `tensor.to(device)`: relocation produces a new tensor (torch `.to` never
mutates its receiver), values unchanged. -/
def Tensor.toDevice (t : Tensor) (d : Device) : Tensor :=
  { t with device := d }

/-- `tensor.to(dtype)`: dtype cast as a new tensor; element rounding is not
modelled (see the header), only the dtype tag changes. -/
def Tensor.toDtype (t : Tensor) (dt : DType) : Tensor :=
  { t with dtype := dt }

/-- Python exceptions raised by the modelled code paths. -/
inductive PyErr
  /-- `TypeError("Unhandled input type ...")` -/
  | typeError
  /-- torch `RuntimeError`: shape mismatch on `padded_x[:len(name)] = name` -/
  | shapeError
  /-- `ValueError` from `bytearray(...)` on a value outside `0..255`, or
  `UnicodeDecodeError` from strict `.decode("utf-8")` -/
  | valueError
  /-- an error raised by the backend primitive `fn` and propagated -/
  | backendError
  /-- `RuntimeError` from `.item()` on a tensor with more than one element,
  or an out-of-range index such as `list_str[0]` on an empty list -/
  | runtimeError
  deriving DecidableEq, Repr

/-! ## UTF-8 codec

`_encode_str` calls `bytearray(x, "utf-8")` and `_decode_str` calls
`bytearray(...).decode("utf-8")`.  The two functions below implement the
standard UTF-8 encoding of a sequence of code points and the strict decoder
(rejecting overlong forms, surrogates and out-of-range values, as CPython's
strict codec does). -/

/-- A Unicode scalar value: what one element of a Python `str` holds. -/
def isValidCP (n : Nat) : Bool :=
  n < 0x110000 && !(0xD800 ≤ n && n < 0xE000)

/-- UTF-8 encoding of one code point (arithmetic form of the usual
bit-layout: `0xC0 + n / 64` is `0xC0 ||| (n >>> 6)` for `n < 0x800`, etc.). -/
def utf8EncodeChar (n : Nat) : List Nat :=
  if n < 0x80 then [n]
  else if n < 0x800 then [0xC0 + n / 64, 0x80 + n % 64]
  else if n < 0x10000 then [0xE0 + n / 4096, 0x80 + n / 64 % 64, 0x80 + n % 64]
  else [0xF0 + n / 262144, 0x80 + n / 4096 % 64, 0x80 + n / 64 % 64, 0x80 + n % 64]

/-- `bytearray(x, "utf-8")`: UTF-8 encoding of a whole string. -/
def utf8Encode (s : List Nat) : List Nat :=
  (s.map utf8EncodeChar).flatten

/-- One step of the strict UTF-8 decoder: given a lead byte `b0` and the
remaining bytes `rest`, return the decoded code point and how many
continuation bytes were consumed, or `none` on malformed input
(truncated sequence, bad continuation byte — those with `b / 64 ≠ 2`,
i.e. outside `0x80..0xBF` — overlong form, surrogate, or out of range),
as CPython's strict codec rejects them. -/
def utf8DecodeChar? (b0 : Nat) (rest : List Nat) : Option (Nat × Nat) :=
  if b0 < 0x80 then some (b0, 0)
  else if b0 < 0xC2 then none
  else if b0 < 0xE0 then
    if 1 ≤ rest.length ∧ rest.getD 0 0 / 64 = 2 then
      some ((b0 - 0xC0) * 64 + (rest.getD 0 0 - 0x80), 1)
    else none
  else if b0 < 0xF0 then
    if 2 ≤ rest.length ∧ rest.getD 0 0 / 64 = 2 ∧ rest.getD 1 0 / 64 = 2 then
      let n := (b0 - 0xE0) * 4096 + (rest.getD 0 0 - 0x80) * 64 + (rest.getD 1 0 - 0x80)
      if n < 0x800 ∨ (0xD800 ≤ n ∧ n < 0xE000) then none else some (n, 2)
    else none
  else if b0 < 0xF5 then
    if 3 ≤ rest.length ∧ rest.getD 0 0 / 64 = 2 ∧ rest.getD 1 0 / 64 = 2 ∧
        rest.getD 2 0 / 64 = 2 then
      let n := (b0 - 0xF0) * 262144 + (rest.getD 0 0 - 0x80) * 4096 +
        (rest.getD 1 0 - 0x80) * 64 + (rest.getD 2 0 - 0x80)
      if n < 0x10000 ∨ 0x110000 ≤ n then none else some (n, 3)
    else none
  else none

/-- Strict UTF-8 decoder (`bytes.decode("utf-8")`): `none` models
`UnicodeDecodeError`. -/
def utf8Decode : List Nat → Option (List Nat)
  | [] => some []
  | b0 :: t0 =>
    match utf8DecodeChar? b0 t0 with
    | none => none
    | some (c, k) => (utf8Decode (t0.drop k)).map (c :: ·)
termination_by l => l.length
decreasing_by
  simp only [List.length_cons, List.length_drop]
  omega

/-! ## `ComputationModel._encode_str` / `._decode_str` -/

/-- The fixed capacity `size = 1024` from `_encode_str`. -/
def strCapacity : Nat := 1024

/-- `ComputationModel._encode_str(x, device)`.

Source, line by line: warn and truncate `x` to its first 1024 code points
when longer; `name = torch.tensor(bytearray(x, "utf-8")).to(device)`;
`padded_x = torch.zeros(1025, device=device, dtype=torch.long)`;
`padded_x[:len(name)] = name` — torch raises a shape-mismatch
`RuntimeError` when `len(name) > 1025`, because the sliced view clamps to
1025 elements; `padded_x[-1] = len(name)`; result shape `(1, 1025)` after
`unsqueeze(0)`, modelled as the flat 1025-element row.

The returned `Bool` records whether the truncation `warnings.warn`
diagnostic fired (a non-fatal warning, not an exception). -/
def encodeStr (x : List Nat) (device : Device) : Except PyErr (Tensor × Bool) :=
  let warned := strCapacity < x.length
  let x' := x.take strCapacity
  let name := utf8Encode x'
  if strCapacity + 1 < name.length then
    .error .shapeError
  else
    let padded : List Int :=
      (name.map Int.ofNat) ++ List.replicate (strCapacity + 1 - name.length) 0
    let padded := padded.set strCapacity (Int.ofNat name.length)
    .ok (⟨padded, .int64, device⟩, warned)

/-- Python slice `l[:k]` for an `Int` bound `k` (a negative bound counts
from the end, clamped at zero), as used by `x[: x[-1]]` in `_decode_str`. -/
def pySliceTo (l : List Int) (k : Int) : List Int :=
  if 0 ≤ k then l.take k.toNat else l.take (l.length - (-k).toNat)

/-- One row of `_decode_str`:
`bytearray(x[: x[-1]].tolist()).decode("utf-8")`.  `x[-1]` on an empty
tensor raises; `bytearray` raises `ValueError` on a value outside
`0..255`; strict UTF-8 decoding raises on malformed bytes. -/
def decodeRow (x : List Int) : Except PyErr (List Nat) :=
  match x.getLast? with
  | none => .error .runtimeError
  | some len =>
    let bytes := pySliceTo x len
    if bytes.all (fun b => 0 ≤ b ∧ b < 256) then
      match utf8Decode (bytes.map Int.toNat) with
      | some s => .ok s
      | none => .error .valueError
    else .error .valueError

/-- Chunk the flat data of an encoded-string batch of shape `(n, 1025)`
back into its `n` rows of 1025 elements. -/
def chunkRows (l : List Int) : List (List Int) :=
  if l.isEmpty then []
  else l.take (strCapacity + 1) :: chunkRows (l.drop (strCapacity + 1))
termination_by l.length
decreasing_by
  simp only [List.length_drop]
  cases l with
  | nil => simp [List.isEmpty] at *
  | cons a l => simp; omega

/-- `ComputationModel._decode_str(xs)` for `xs` of shape `(n, 1025)`: one
decoded string per row, order preserved; the list comprehension propagates
the first raised exception. -/
def decodeStr (xs : Tensor) : Except PyErr (List (List Nat)) :=
  (chunkRows xs.data).mapM decodeRow

/-! ## `ComputationModel._apply_op`

The side effects of `_apply_op` are recorded as an event trace: a forward
device move, a forward dtype cast, the backend primitive call, and the
reversal casts of the four-way `return` at the end. -/

/-- Observable operations performed by `_apply_op`. -/
inductive OpEvent
  /-- forward `tensor = tensor.to(device)` -/
  | castDevice (d : Device)
  /-- forward `tensor = tensor.to(self._collective_op_dtype)` -/
  | castDtype (dt : DType)
  /-- the backend primitive `fn(tensor, *args, **kwargs)` -/
  | callPrim
  /-- one of the three reversing `tensor.to(...)` calls: cast back to
  `out_dtype` and/or move back to `tensor_device` -/
  | castBack (dt : Option DType) (d : Option Device)
  deriving DecidableEq, Repr

/-- `ComputationModel._apply_op(tensor, device, fn)` with the model's
`_collective_op_dtype` passed as `cdtype`.  The primitive `fn` may raise
(`Except.error`); the exception propagates — the source has no
`try`/`finally`, so on failure the function is exited at the `fn` call and
the reversal casts are never reached.  The event trace is returned next to
the result. -/
def applyOp (cdtype : Option DType) (t0 : Tensor) (device : Device)
    (fn : Tensor → Except PyErr Tensor) : Except PyErr Tensor × List OpEvent :=
  -- out_dtype = None; tensor_device = None
  -- if tensor.device != device: tensor_device = tensor.device; tensor = tensor.to(device)
  let moved := t0.device ≠ device
  let tensorDevice : Option Device := if moved then some t0.device else none
  let t1 := if moved then t0.toDevice device else t0
  let ev1 : List OpEvent := if moved then [.castDevice device] else []
  -- if self._collective_op_dtype is not None and tensor.dtype not in (float32, float64):
  --   out_dtype = tensor.dtype; tensor = tensor.to(self._collective_op_dtype)
  let casted := cdtype.isSome ∧ ¬(t1.dtype = .float32 ∨ t1.dtype = .float64)
  let outDtype : Option DType := if casted then some t1.dtype else none
  let t2 := match cdtype with
    | some cd => if t1.dtype = .float32 ∨ t1.dtype = .float64 then t1 else t1.toDtype cd
    | none => t1
  let ev2 : List OpEvent := match cdtype with
    | some cd => if t1.dtype = .float32 ∨ t1.dtype = .float64 then [] else [.castDtype cd]
    | none => []
  match fn t2 with
  | .error e => (.error e, ev1 ++ ev2 ++ [.callPrim])
  | .ok t3 =>
    match outDtype, tensorDevice with
    | some dt, some dv =>
      (.ok ((t3.toDtype dt).toDevice dv), ev1 ++ ev2 ++ [.callPrim, .castBack (some dt) (some dv)])
    | some dt, none =>
      (.ok (t3.toDtype dt), ev1 ++ ev2 ++ [.callPrim, .castBack (some dt) none])
    | none, some dv =>
      (.ok (t3.toDevice dv), ev1 ++ ev2 ++ [.callPrim, .castBack none (some dv)])
    | none, none => (.ok t3, ev1 ++ ev2 ++ [.callPrim])

/-! ## Operands and `ComputationModel._collective_op` -/

/-- The runtime kinds a collective entry point can receive: a `Number`, a
`str`, a `torch.Tensor`, or anything else (modelled by `mapping`, e.g. a
`dict`, the spec's example of an unsupported kind). -/
inductive Operand
  | num (v : Int)
  | str (s : List Nat)
  | tensor (t : Tensor)
  | mapping
  deriving DecidableEq, Repr

/-- The value shapes a collective returns: `tensor.item()` (a scalar read
from a buffer of the given dtype — a Python `float` exactly when the dtype
is floating), `tensor.tolist()`, `_decode_str(tensor)`, `list_str[0]`, or
a tensor. -/
inductive CollResult
  | num (v : Int) (dt : DType)
  | nums (vs : List Int)
  | strs (ss : List (List Nat))
  | str (s : List Nat)
  | tensor (t : Tensor)
  deriving DecidableEq, Repr

/-- `ComputationModel._collective_op(tensor, fn)`: wrap a `Number` as
`torch.tensor(tensor, device=device, dtype=self._collective_op_dtype)`
(dtype inference gives `int64` for a Python `int` when the configured
dtype is `None`), encode a `str` via `_encode_str`, run `_apply_op`, then
unwrap — a `Number` comes back as `.item()` when the result has exactly one
element and as `.tolist()` otherwise; a `str` comes back through
`_decode_str`.  The `mapping` case is unreachable: every public entry
point rejects it before calling `_collective_op`. -/
def collectiveOp (cdtype : Option DType) (device : Device)
    (fn : Tensor → Except PyErr Tensor) (x : Operand) :
    Except PyErr CollResult × List OpEvent :=
  match x with
  | .num v =>
    let t0 : Tensor := ⟨[v], cdtype.getD .int64, device⟩
    match applyOp cdtype t0 device fn with
    | (.error e, ev) => (.error e, ev)
    | (.ok t, ev) =>
      if t.data.length = 1 then (.ok (.num (t.data.headD 0) t.dtype), ev)
      else (.ok (.nums t.data), ev)
  | .str s =>
    match encodeStr s device with
    | .error e => (.error e, [])
    | .ok (t0, _warned) =>
      match applyOp cdtype t0 device fn with
      | (.error e, ev) => (.error e, ev)
      | (.ok t, ev) =>
        match decodeStr t with
        | .error e => (.error e, ev)
        | .ok ss => (.ok (.strs ss), ev)
  | .tensor t0 =>
    match applyOp cdtype t0 device fn with
    | (.error e, ev) => (.error e, ev)
    | (.ok t, ev) => (.ok (.tensor t), ev)
  | .mapping => (.error .runtimeError, [])

/-- `ComputationModel.all_reduce(tensor, op)`: reject anything that is not
a `torch.Tensor` or a `Number` with `TypeError` before `_collective_op` is
entered (so the trace of a rejected call is empty: no encode, no cast, no
primitive), then dispatch to `_collective_op(tensor, self._do_all_reduce, op)`. -/
def allReduce (cdtype : Option DType) (device : Device)
    (fn : Tensor → String → Except PyErr Tensor) (x : Operand) (op : String) :
    Except PyErr CollResult × List OpEvent :=
  match x with
  | .num _ => collectiveOp cdtype device (fun t => fn t op) x
  | .tensor _ => collectiveOp cdtype device (fun t => fn t op) x
  | _ => (.error .typeError, [])

/-- `ComputationModel.all_gather(tensor)`: reject anything that is not a
`torch.Tensor`, `Number` or `str`, then `_collective_op(tensor, self._do_all_gather)`. -/
def allGather (cdtype : Option DType) (device : Device)
    (fn : Tensor → Except PyErr Tensor) (x : Operand) :
    Except PyErr CollResult × List OpEvent :=
  match x with
  | .mapping => (.error .typeError, [])
  | _ => collectiveOp cdtype device fn x

/-- The tail of `ComputationModel.broadcast` after the operand has been
prepared as a tensor `t0` (with `toNum`/`toStr` recording the original
kind): `tensor = self._apply_op(tensor, device, self._do_broadcast, src)`,
then unwrap — `tensor.item()` for a `Number` (raising unless the result
has exactly one element), `self._decode_str(tensor)[0]` for a `str`
(raising on an empty batch), the tensor itself otherwise. -/
def broadcastFinish (cdtype : Option DType) (device : Device)
    (fn : Tensor → Nat → Except PyErr Tensor) (t0 : Tensor)
    (toNum toStr : Bool) (src : Nat) : Except PyErr CollResult × List OpEvent :=
  match applyOp cdtype t0 device (fun u => fn u src) with
  | (.error e, ev) => (.error e, ev)
  | (.ok t, ev) =>
    if toNum then
      if t.data.length = 1 then (.ok (.num (t.data.headD 0) t.dtype), ev)
      else (.error .runtimeError, ev)
    else if toStr then
      match decodeStr t with
      | .error e => (.error e, ev)
      | .ok ss =>
        match ss.head? with
        | some s => (.ok (.str s), ev)
        | none => (.error .runtimeError, ev)
    else (.ok (.tensor t), ev)

/-- `ComputationModel.broadcast(tensor, src)`.  On a rank other than `src`
a `Number` is replaced by the placeholder `torch.empty(1, device=...,
dtype=torch.float)` and a `str` by `torch.empty(1, 1025, device=...,
dtype=torch.long)` — `torch.empty` contents are unspecified, modelled by
the parameter `junk`; on rank `src` a `Number` becomes
`torch.tensor([tensor], device=device, dtype=torch.float)` and a `str`
goes through `_encode_str`.  Note `torch.float` is `float32` on both
paths, taken regardless of `_collective_op_dtype`.  After
`_apply_op(tensor, device, self._do_broadcast, src)`, a `Number` returns
`tensor.item()` (which raises unless the result has exactly one element)
and a `str` returns `self._decode_str(tensor)[0]`. -/
def broadcast (cdtype : Option DType) (device : Device) (rank : Nat) (junk : Int)
    (fn : Tensor → Nat → Except PyErr Tensor) (x : Operand) (src : Nat) :
    Except PyErr CollResult × List OpEvent :=
  match x with
  | .mapping => (.error .typeError, [])
  | .tensor t => broadcastFinish cdtype device fn t false false src
  | .num v =>
    let t0 : Tensor := if rank ≠ src then ⟨[junk], .float32, device⟩
      else ⟨[v], .float32, device⟩
    broadcastFinish cdtype device fn t0 true false src
  | .str s =>
    if rank ≠ src then
      broadcastFinish cdtype device fn
        ⟨List.replicate (strCapacity + 1) junk, .int64, device⟩ false true src
    else
      match encodeStr s device with
      | .error e => (.error e, [])
      | .ok (t0, _) => broadcastFinish cdtype device fn t0 false true src

/-! ## `_SerialModel` collectives -/

/-- Return type of `_SerialModel.all_gather`: the tensor unchanged, or a
one-element Python list around a non-tensor operand. -/
inductive GatherResult
  | tensor (t : Tensor)
  | list (xs : List Operand)
  deriving DecidableEq, Repr

/-- `_SerialModel.all_reduce(tensor, op)`: returns its input unchanged. -/
def serialAllReduce (x : Operand) (_op : String) : Operand := x

/-- `_SerialModel.all_gather(tensor)`: a `torch.Tensor` is returned
unchanged, any other operand is wrapped as `[tensor]`. -/
def serialAllGather (x : Operand) : GatherResult :=
  match x with
  | .tensor t => .tensor t
  | other => .list [other]

/-- `_SerialModel.broadcast(tensor, src)`: returns its input unchanged. -/
def serialBroadcast (x : Operand) (_src : Nat) : Operand := x

/-! ## `ComputationModel._setup_attrs` -/

/-- The three lazily resolved topology fields `_nproc_per_node`, `_nnodes`
and `_node`, each `None` until resolved. -/
structure TopoState where
  nprocPerNode : Option Nat
  nnodes : Option Nat
  node : Option Nat
  deriving DecidableEq, Repr

/-- `ComputationModel._setup_attrs(self)` with the abstract accessors
passed in: `worldSize = self.get_world_size()`, `rank = self.get_rank()`,
and `probe` the value `self._compute_nproc_per_node()` would return.  The
returned `Bool` reports whether `_compute_nproc_per_node` was actually
invoked.  `//` is truncating division (`probe = 0` would raise
`ZeroDivisionError` in Python; no claim reaches it, and every concrete

backend's probe is at least 1). -/
def setupAttrs (worldSize rank probe : Nat) (s : TopoState) : TopoState × Bool :=
  let npp : Nat × Bool :=
    match s.nprocPerNode with
    | some v => (v, false)
    | none => if 1 < worldSize then (probe, true) else (1, false)
  let nnodes := match s.nnodes with
    | some v => v
    | none => worldSize / npp.fst
  let node := match s.node with
    | some v => v
    | none => rank / npp.fst
  (⟨some npp.fst, some nnodes, some node⟩, npp.snd)

/-! ## UTF-8 codec lemmas -/

theorem utf8EncodeChar_ne_nil (n : Nat) : utf8EncodeChar n ≠ [] := by
  unfold utf8EncodeChar
  split
  · simp
  · split
    · simp
    · split <;> simp

theorem length_le_utf8Encode (s : List Nat) : s.length ≤ (utf8Encode s).length := by
  induction s with
  | nil => simp [utf8Encode]
  | cons c cs ih =>
    simp only [utf8Encode, List.map_cons, List.flatten_cons, List.length_append, List.length_cons]
    have h1 : 1 ≤ (utf8EncodeChar c).length := by
      have hne := utf8EncodeChar_ne_nil c
      cases h : utf8EncodeChar c with
      | nil => exact absurd h hne
      | cons a t => simp
    have h2 : cs.length ≤ (utf8Encode cs).length := ih
    simp only [utf8Encode] at h2
    omega

theorem utf8EncodeChar_lt_256 (n : Nat) (hn : n < 0x110000) :
    ∀ b ∈ utf8EncodeChar n, b < 256 := by
  intro b hb
  unfold utf8EncodeChar at hb
  by_cases h1 : n < 0x80
  · simp [h1] at hb; omega
  · by_cases h2 : n < 0x800
    · simp [h1, h2] at hb; rcases hb with h | h <;> omega
    · by_cases h3 : n < 0x10000
      · simp [h1, h2, h3] at hb; rcases hb with h | h | h <;> omega
      · simp [h1, h2, h3] at hb; rcases hb with h | h | h | h <;> omega

theorem utf8Decode_encodeChar_append (n : Nat) (h : isValidCP n = true) (bs : List Nat) :
    utf8Decode (utf8EncodeChar n ++ bs) = (utf8Decode bs).map (n :: ·) := by
  simp only [isValidCP, Bool.and_eq_true, decide_eq_true_eq, Bool.not_eq_true',
    Bool.and_eq_false_iff, decide_eq_false_iff_not, not_le, not_lt] at h
  unfold utf8EncodeChar
  by_cases h1 : n < 0x80
  · rw [if_pos h1, List.cons_append, List.nil_append, utf8Decode.eq_2]
    have hd : utf8DecodeChar? n bs = some (n, 0) := by
      unfold utf8DecodeChar?
      rw [if_pos h1]
    rw [hd]
    simp
  · rw [if_neg h1]
    by_cases h2 : n < 0x800
    · rw [if_pos h2]
      rw [List.cons_append, List.cons_append, List.nil_append, utf8Decode.eq_2]
      have hd : utf8DecodeChar? (0xC0 + n / 64) ((0x80 + n % 64) :: bs) = some (n, 1) := by
        unfold utf8DecodeChar?
        rw [if_neg (by omega), if_neg (by omega), if_pos (by omega)]
        rw [if_pos (by simp only [List.length_cons, List.getD_cons_zero]; omega)]
        simp only [List.getD_cons_zero]
        have hv : (0xC0 + n / 64 - 0xC0) * 64 + (0x80 + n % 64 - 0x80) = n := by omega
        rw [hv]
      rw [hd]
      simp
    · rw [if_neg h2]
      by_cases h3 : n < 0x10000
      · rw [if_pos h3]
        rw [List.cons_append, List.cons_append, List.cons_append, List.nil_append,
          utf8Decode.eq_2]
        have hd : utf8DecodeChar? (0xE0 + n / 4096)
            ((0x80 + n / 64 % 64) :: (0x80 + n % 64) :: bs) = some (n, 2) := by
          unfold utf8DecodeChar?
          rw [if_neg (by omega), if_neg (by omega), if_neg (by omega), if_pos (by omega)]
          rw [if_pos (by
            simp only [List.length_cons, List.getD_cons_zero, List.getD_cons_succ]
            omega)]
          simp only [List.getD_cons_zero, List.getD_cons_succ]
          rw [if_neg (by omega)]
          have hv : (0xE0 + n / 4096 - 0xE0) * 4096 + (0x80 + n / 64 % 64 - 0x80) * 64 +
              (0x80 + n % 64 - 0x80) = n := by omega
          rw [hv]
        rw [hd]
        simp
      · rw [if_neg h3]
        rw [List.cons_append, List.cons_append, List.cons_append, List.cons_append,
          List.nil_append, utf8Decode.eq_2]
        have hd : utf8DecodeChar? (0xF0 + n / 262144)
            ((0x80 + n / 4096 % 64) :: (0x80 + n / 64 % 64) :: (0x80 + n % 64) :: bs) =
            some (n, 3) := by
          unfold utf8DecodeChar?
          rw [if_neg (by omega), if_neg (by omega), if_neg (by omega), if_neg (by omega),
            if_pos (by omega)]
          rw [if_pos (by
            simp only [List.length_cons, List.getD_cons_zero, List.getD_cons_succ]
            omega)]
          simp only [List.getD_cons_zero, List.getD_cons_succ]
          rw [if_neg (by omega)]
          have hv : (0xF0 + n / 262144 - 0xF0) * 262144 + (0x80 + n / 4096 % 64 - 0x80) * 4096 +
              (0x80 + n / 64 % 64 - 0x80) * 64 + (0x80 + n % 64 - 0x80) = n := by omega
          rw [hv]
        rw [hd]
        simp

theorem utf8Decode_utf8Encode (s : List Nat) (h : ∀ c ∈ s, isValidCP c = true) :
    utf8Decode (utf8Encode s) = some s := by
  induction s with
  | nil => simp [utf8Encode, utf8Decode]
  | cons c cs ih =>
    have : utf8Encode (c :: cs) = utf8EncodeChar c ++ utf8Encode cs := by
      simp [utf8Encode]
    rw [this, utf8Decode_encodeChar_append c (h c (by simp)) _,
      ih (fun d hd => h d (by simp [hd]))]
    rfl


/-! ## String codec correctness -/

theorem chunkRows_eq_single (l : List Int) (h0 : l ≠ [])
    (h1 : l.length ≤ strCapacity + 1) : chunkRows l = [l] := by
  rw [chunkRows, if_neg (by simp [h0])]
  rw [List.take_of_length_le h1, List.drop_eq_nil_of_le h1]
  rw [chunkRows]
  simp

theorem set_replicate_last (k : Nat) (v : Int) (h : 0 < k) :
    (List.replicate k (0 : Int)).set (k - 1) v =
      List.replicate (k - 1) 0 ++ [v] := by
  induction k with
  | zero => omega
  | succ k ih =>
    cases k with
    | zero => simp
    | succ k' =>
      rw [List.replicate_succ, show k' + 1 + 1 - 1 = (k' + 1 - 1) + 1 by omega,
        List.set_cons_succ]
      rw [ih (by omega)]
      simp [List.replicate_succ]

theorem decodeRow_encodePad (name : List Nat) (s' : List Nat)
    (hb : ∀ b ∈ name, b < 256) (hdec : utf8Decode name = some s')
    (hL : name.length ≤ strCapacity) :
    decodeRow ((name.map Int.ofNat ++
        List.replicate (strCapacity + 1 - name.length) 0).set
      strCapacity (Int.ofNat name.length)) = .ok s' := by
  have hlenA : (name.map Int.ofNat).length = name.length := by simp
  rw [List.set_append_right _ _ (by omega)]
  rw [hlenA]
  have hk : 0 < strCapacity + 1 - name.length := by omega
  have hidx : strCapacity - name.length = (strCapacity + 1 - name.length) - 1 := by omega
  rw [hidx, set_replicate_last _ _ hk]
  rw [show strCapacity + 1 - name.length - 1 = strCapacity - name.length by omega,
    ← List.append_assoc]
  unfold decodeRow
  rw [List.getLast?_concat]
  simp only
  have hslice : pySliceTo ((name.map Int.ofNat ++ List.replicate (strCapacity - name.length) 0) ++
      [Int.ofNat name.length]) (Int.ofNat name.length) = name.map Int.ofNat := by
    unfold pySliceTo
    have hpos : (0 : Int) ≤ Int.ofNat name.length := Int.ofNat_nonneg _
    rw [if_pos hpos]
    have ht : (Int.ofNat name.length).toNat = name.length := rfl
    rw [ht, List.append_assoc, List.take_left' hlenA]
  rw [hslice]
  rw [if_pos ?hall]
  case hall =>
    rw [List.all_eq_true]
    intro b hbmem
    simp only [List.mem_map] at hbmem
    obtain ⟨a, ha, rfl⟩ := hbmem
    have h256 := hb a ha
    simp only [decide_eq_true_eq, Int.ofNat_eq_natCast]
    omega
  have hmap : (name.map Int.ofNat).map Int.toNat = name := by
    rw [List.map_map]
    have hco : (Int.toNat ∘ Int.ofNat) = id := by
      funext a; simp
    rw [hco, List.map_id]
  rw [hmap, hdec]


theorem utf8Encode_lt_256 (s : List Nat) (h : ∀ c ∈ s, isValidCP c = true) :
    ∀ b ∈ utf8Encode s, b < 256 := by
  intro b hb
  simp only [utf8Encode, List.mem_flatten, List.mem_map] at hb
  obtain ⟨l, ⟨c, hc, rfl⟩, hbl⟩ := hb
  have hv := h c hc
  simp only [isValidCP, Bool.and_eq_true, decide_eq_true_eq] at hv
  exact utf8EncodeChar_lt_256 c hv.1 b hbl

theorem encodeStr_eq_ok (x : List Nat) (d : Device)
    (h : (utf8Encode (x.take strCapacity)).length ≤ strCapacity + 1) :
    encodeStr x d = .ok (⟨((utf8Encode (x.take strCapacity)).map Int.ofNat ++
      List.replicate (strCapacity + 1 - (utf8Encode (x.take strCapacity)).length) 0).set
      strCapacity (Int.ofNat (utf8Encode (x.take strCapacity)).length), .int64, d⟩,
      decide (strCapacity < x.length)) := by
  unfold encodeStr
  rw [if_neg (by omega)]

def roundTrip (s : List Nat) (d : Device) : Except PyErr (List (List Nat)) :=
  (encodeStr s d).bind (fun p => decodeStr p.fst)

theorem decodeStr_mk (l : List Int) (dt : DType) (dev : Device) :
    decodeStr ⟨l, dt, dev⟩ = (chunkRows l).mapM decodeRow := rfl

theorem roundTrip_of_bytes_le (s : List Nat) (d : Device) (hv : ∀ c ∈ s, isValidCP c = true)
    (hlen : (utf8Encode s).length ≤ strCapacity) :
    roundTrip s d = .ok [s] := by
  have hslen : s.length ≤ strCapacity := le_trans (length_le_utf8Encode s) hlen
  have htake : s.take strCapacity = s := List.take_of_length_le hslen
  unfold roundTrip
  rw [encodeStr_eq_ok s d (by rw [htake]; omega), htake]
  simp only [Except.bind]
  rw [decodeStr_mk]
  have hdata_len : (((utf8Encode s).map Int.ofNat ++
      List.replicate (strCapacity + 1 - (utf8Encode s).length) 0).set
      strCapacity (Int.ofNat (utf8Encode s).length)).length = strCapacity + 1 := by
    simp only [List.length_set, List.length_append, List.length_map, List.length_replicate]
    omega
  rw [chunkRows_eq_single _ (by
      intro hnil
      rw [hnil] at hdata_len
      simp at hdata_len)
    (by rw [hdata_len])]
  rw [List.mapM_cons, decodeRow_encodePad (utf8Encode s) s
    (utf8Encode_lt_256 s hv) (utf8Decode_utf8Encode s hv) hlen]
  rfl



theorem isValidCP_of_lt_128 (c : Nat) (h : c < 128) : isValidCP c = true := by
  simp only [isValidCP, Bool.and_eq_true, decide_eq_true_eq, Bool.not_eq_true',
    Bool.and_eq_false_iff, decide_eq_false_iff_not, not_le, not_lt]
  omega

theorem utf8Encode_ascii (p : List Nat) (h : ∀ c ∈ p, c < 128) : utf8Encode p = p := by
  induction p with
  | nil => rfl
  | cons c cs ih =>
    have hc : utf8EncodeChar c = [c] := by
      unfold utf8EncodeChar
      rw [if_pos (h c (by simp))]
    rw [show utf8Encode (c :: cs) = utf8EncodeChar c ++ utf8Encode cs by simp [utf8Encode],
      hc, ih (fun d hd => h d (by simp [hd]))]
    rfl

theorem decodeRow_exact (name : List Nat) (s' : List Nat)
    (hb : ∀ b ∈ name, b < 256) (hdec : utf8Decode name = some s') :
    decodeRow (name.map Int.ofNat ++ [Int.ofNat name.length]) = .ok s' := by
  have hlenA : (name.map Int.ofNat).length = name.length := by simp
  unfold decodeRow
  rw [List.getLast?_concat]
  simp only
  have hslice : pySliceTo (name.map Int.ofNat ++ [Int.ofNat name.length])
      (Int.ofNat name.length) = name.map Int.ofNat := by
    unfold pySliceTo
    have hpos : (0 : Int) ≤ Int.ofNat name.length := Int.ofNat_nonneg _
    rw [if_pos hpos]
    have ht : (Int.ofNat name.length).toNat = name.length := rfl
    rw [ht, List.take_left' hlenA]
  rw [hslice]
  rw [if_pos ?hall]
  case hall =>
    rw [List.all_eq_true]
    intro b hbmem
    simp only [List.mem_map] at hbmem
    obtain ⟨a, ha, rfl⟩ := hbmem
    have h256 := hb a ha
    simp only [decide_eq_true_eq, Int.ofNat_eq_natCast]
    omega
  have hmap : (name.map Int.ofNat).map Int.toNat = name := by
    rw [List.map_map]
    have hco : (Int.toNat ∘ Int.ofNat) = id := by
      funext a; simp
    rw [hco, List.map_id]
  rw [hmap, hdec]

theorem encode_truncated_ascii (s : List Nat) (d : Device)
    (hascii : ∀ c ∈ s.take strCapacity, c < 128) (hlong : strCapacity < s.length) :
    encodeStr s d =
      .ok (⟨(s.take strCapacity).map Int.ofNat ++ [Int.ofNat strCapacity], .int64, d⟩, true) ∧
    decodeStr ⟨(s.take strCapacity).map Int.ofNat ++ [Int.ofNat strCapacity], .int64, d⟩ =
      .ok [s.take strCapacity] := by
  have hplen : (s.take strCapacity).length = strCapacity := by
    rw [List.length_take]
    omega
  have henc : utf8Encode (s.take strCapacity) = s.take strCapacity :=
    utf8Encode_ascii _ hascii
  constructor
  · rw [encodeStr_eq_ok s d (by rw [henc, hplen]; omega)]
    rw [henc, hplen]
    have hAlen : ((s.take strCapacity).map Int.ofNat).length = strCapacity := by
      rw [List.length_map, hplen]
    have hset : (((s.take strCapacity).map Int.ofNat) ++
        List.replicate (strCapacity + 1 - strCapacity) 0).set strCapacity
          (Int.ofNat strCapacity) =
        (s.take strCapacity).map Int.ofNat ++ [Int.ofNat strCapacity] := by
      rw [List.set_append_right _ _ (le_of_eq hAlen)]
      rw [hAlen, Nat.sub_self]
      rfl
    rw [hset]
    simp [hlong]
  · rw [decodeStr_mk, chunkRows_eq_single _ (by simp) (by simp [hplen])]
    rw [List.mapM_cons]
    have hd : decodeRow ((s.take strCapacity).map Int.ofNat ++ [Int.ofNat strCapacity]) =
        .ok (s.take strCapacity) := by
      have hdec0 := utf8Decode_utf8Encode (s.take strCapacity)
        (fun c hc => isValidCP_of_lt_128 c (hascii c hc))
      rw [henc] at hdec0
      have hrow := decodeRow_exact (s.take strCapacity) (s.take strCapacity)
        (fun b hb => by have := hascii b hb; omega) hdec0
      rw [hplen] at hrow
      exact hrow
    rw [hd]
    rfl


/-! ## Claims C1 and C5: string round-trip and truncation -/

set_option maxRecDepth 40000

/-- **C1** (corrected): the round-trip `_decode_str(_encode_str(s, device))
== [s]` holds for every well-formed string whose UTF-8 encoding fits in
1024 bytes (which forces `len(s) ≤ 1024`). -/
theorem C1_roundtrip (s : List Nat) (d : Device)
    (hv : ∀ c ∈ s, isValidCP c = true)
    (hlen : (utf8Encode s).length ≤ strCapacity) :
    roundTrip s d = .ok [s] :=
  roundTrip_of_bytes_le s d hv hlen

/-- **C1** counterexample. -/
theorem C1_counterexample :
    (∀ c ∈ List.replicate 257 65536, isValidCP c = true) ∧
    (List.replicate 257 65536).length ≤ 1024 ∧
    roundTrip (List.replicate 257 65536) Device.cpu ≠
      .ok [List.replicate 257 65536] := by
  have h : roundTrip (List.replicate 257 65536) Device.cpu = .error .shapeError := by rfl
  exact ⟨by decide, by decide, by rw [h]; intro hc; cases hc⟩

/-- **C1** witness at the string "hi". -/
theorem C1_witness :
    (∀ c ∈ [104, 105], isValidCP c = true) ∧
    (utf8Encode [104, 105]).length ≤ strCapacity ∧
    roundTrip [104, 105] Device.cpu = .ok [[104, 105]] :=
  ⟨by decide, by decide, C1_roundtrip [104, 105] Device.cpu (by decide) (by decide)⟩

/-- **C5** (corrected): for a string longer than 1024 code units whose
first 1024 code units are ASCII, `_encode_str` truncates, warns, sets the
trailing length field to 1024 and does not raise, and decoding returns the
1024-unit prefix. -/
theorem C5_truncation (s : List Nat) (d : Device)
    (hascii : ∀ c ∈ s.take strCapacity, c < 128) (hlong : strCapacity < s.length) :
    ∃ row : List Int,
      encodeStr s d = .ok (⟨row, .int64, d⟩, true) ∧
      row.getLast? = some (Int.ofNat strCapacity) ∧
      decodeStr ⟨row, .int64, d⟩ = .ok [s.take strCapacity] :=
  ⟨(s.take strCapacity).map Int.ofNat ++ [Int.ofNat strCapacity],
    (encode_truncated_ascii s d hascii hlong).1,
    List.getLast?_concat _,
    (encode_truncated_ascii s d hascii hlong).2⟩

theorem take_replicate_of_le (m k : Nat) (c : Nat) (h : m ≤ k) :
    (List.replicate k c).take m = List.replicate m c := by
  induction m generalizing k with
  | zero => simp
  | succ m ih =>
    cases k with
    | zero => omega
    | succ k =>
      rw [List.replicate_succ, List.take_succ_cons, List.replicate_succ, ih k (by omega)]

theorem length_utf8Encode_replicate (k c : Nat) :
    (utf8Encode (List.replicate k c)).length = k * (utf8EncodeChar c).length := by
  induction k with
  | zero => simp [utf8Encode]
  | succ k ih =>
    rw [List.replicate_succ,
      show utf8Encode (c :: List.replicate k c) =
        utf8EncodeChar c ++ utf8Encode (List.replicate k c) by simp [utf8Encode],
      List.length_append, ih]
    ring

/-- **C5** counterexample. -/
theorem C5_counterexample :
    1024 < (List.replicate 1025 65536).length ∧
    encodeStr (List.replicate 1025 65536) Device.cpu = .error .shapeError := by
  constructor
  · simp
  · simp only [encodeStr]
    rw [take_replicate_of_le strCapacity 1025 65536 (by decide),
      length_utf8Encode_replicate]
    rw [if_pos (by decide)]

/-- **C5** witness at the string of 2000 copies of "a". -/
theorem C5_witness :
    (∀ c ∈ (List.replicate 2000 97).take strCapacity, c < 128) ∧
    strCapacity < (List.replicate 2000 97).length ∧
    ∃ row : List Int,
      encodeStr (List.replicate 2000 97) Device.cpu = .ok (⟨row, .int64, Device.cpu⟩, true) ∧
      row.getLast? = some (Int.ofNat strCapacity) ∧
      decodeStr ⟨row, .int64, Device.cpu⟩ =
        .ok [(List.replicate 2000 97).take strCapacity] := by
  have h1 : ∀ c ∈ (List.replicate 2000 97).take strCapacity, c < 128 := by
    intro c hc
    have h2 := List.mem_of_mem_take hc
    rw [List.mem_replicate] at h2
    omega
  have h2 : strCapacity < (List.replicate 2000 97).length := by
    rw [List.length_replicate]
    decide
  exact ⟨h1, h2, C5_truncation (List.replicate 2000 97) Device.cpu h1 h2⟩


/-! ## Claims C2 and C3: casting in `_apply_op` -/

/-- The dtype the backend primitive sees inside `_apply_op`. -/
def fwdDtype (cd? : Option DType) (dt : DType) : DType :=
  match cd? with
  | some cd => if dt = .float32 ∨ dt = .float64 then dt else cd
  | none => dt

/-- Whether `_apply_op` performs the forward dtype cast. -/
def didCast (cd? : Option DType) (dt : DType) : Prop :=
  cd?.isSome ∧ ¬(dt = .float32 ∨ dt = .float64)

instance (cd? : Option DType) (dt : DType) : Decidable (didCast cd? dt) := by
  unfold didCast
  infer_instance

/-- Characterization of `_apply_op`: the primitive sees the data on the
requested device at `fwdDtype`, the trace records the forward casts and
the call, and on success the single reversing `.to(...)` restores dtype
first and device second; on failure the trace stops at the call. -/
theorem applyOp_eq (cd? : Option DType) (dta : List Int) (dt : DType) (dv : Device)
    (device : Device) (fn : Tensor → Except PyErr Tensor) :
    applyOp cd? ⟨dta, dt, dv⟩ device fn =
      (let fwdEv : List OpEvent :=
        (if dv = device then [] else [.castDevice device]) ++
        (if didCast cd? dt then [.castDtype (fwdDtype cd? dt)] else []) ++ [.callPrim]
      match fn ⟨dta, fwdDtype cd? dt, device⟩ with
      | .error e => (.error e, fwdEv)
      | .ok r =>
        let backDt : Option DType := if didCast cd? dt then some dt else none
        let backDv : Option Device := if dv = device then none else some dv
        let r' : Tensor := match backDt, backDv with
          | some bdt, some bdv => (r.toDtype bdt).toDevice bdv
          | some bdt, none => r.toDtype bdt
          | none, some bdv => r.toDevice bdv
          | none, none => r
        let backEv : List OpEvent := match backDt, backDv with
          | none, none => []
          | bd, bv => [.castBack bd bv]
        (.ok r', fwdEv ++ backEv)) := by
  cases cd? with
  | none =>
    by_cases hdev : dv = device
    · cases hres : fn ⟨dta, dt, device⟩ <;>
        simp [applyOp, fwdDtype, didCast, hdev, hres, Tensor.toDevice, Tensor.toDtype]
    · cases hres : fn ⟨dta, dt, device⟩ <;>
        simp [applyOp, fwdDtype, didCast, hdev, hres, Tensor.toDevice, Tensor.toDtype]
  | some cd =>
    by_cases hdt : dt = .float32 ∨ dt = .float64
    · by_cases hdev : dv = device
      · cases hres : fn ⟨dta, dt, device⟩ <;>
          simp [applyOp, fwdDtype, didCast, hdt, hdev, hres, Tensor.toDevice, Tensor.toDtype]
      · cases hres : fn ⟨dta, dt, device⟩ <;>
          simp [applyOp, fwdDtype, didCast, hdt, hdev, hres, Tensor.toDevice, Tensor.toDtype]
    · by_cases hdev : dv = device
      · cases hres : fn ⟨dta, cd, device⟩ <;>
          simp [applyOp, fwdDtype, didCast, hdt, hdev, hres, Tensor.toDevice, Tensor.toDtype]
      · cases hres : fn ⟨dta, cd, device⟩ <;>
          simp [applyOp, fwdDtype, didCast, hdt, hdev, hres, Tensor.toDevice, Tensor.toDtype]


theorem not_float32_or_64_of_not_floating (dt : DType) (h : dt.isFloating = false) :
    ¬(dt = .float32 ∨ dt = .float64) := by
  intro hc
  rcases hc with hc | hc <;> rw [hc] at h <;> simp [DType.isFloating] at h

/-- **C2** (corrected): with a configured collective dtype, `_apply_op`
upcasts exactly when the buffer's dtype is not `float32`/`float64`; a
`float16` buffer, although floating, is upcast too.  For a non-floating
(integer) input dtype the primitive sees exactly the configured dtype and
the returned result is cast back to the original dtype (and device). -/
theorem C2_apply_op_casting (cd : DType) (t : Tensor) (device : Device)
    (fn : Tensor → Except PyErr Tensor) :
    (OpEvent.castDtype cd ∈ (applyOp (some cd) t device fn).snd ↔
      ¬(t.dtype = .float32 ∨ t.dtype = .float64)) ∧
    (t.dtype.isFloating = false →
      ∀ r : Tensor, fn ⟨t.data, cd, device⟩ = .ok r →
        (applyOp (some cd) t device fn).fst =
          .ok (if t.device = device then r.toDtype t.dtype
               else (r.toDtype t.dtype).toDevice t.device)) := by
  obtain ⟨dta, dt, dv⟩ := t
  rw [applyOp_eq]
  constructor
  · by_cases hdt : dt = .float32 ∨ dt = .float64
    · cases hres : fn ⟨dta, fwdDtype (some cd) dt, device⟩ <;>
        by_cases hdev : dv = device <;>
          simp [fwdDtype, didCast, hdt, hdev, hres]
    · cases hres : fn ⟨dta, fwdDtype (some cd) dt, device⟩ <;>
        by_cases hdev : dv = device <;>
          simp [fwdDtype, didCast, hdt, hdev, hres]
  · intro hint r hfn
    have hdt := not_float32_or_64_of_not_floating dt hint
    have harg : fwdDtype (some cd) dt = cd := by
      simp [fwdDtype, hdt]
    rw [harg] at *
    by_cases hdev : dv = device <;>
      simp [didCast, hdt, hdev, hfn]

/-- **C2** counterexample: a `float16` buffer has a floating dtype, yet
`_apply_op` upcasts it (the code tests membership in `{float32, float64}`,
not floating-ness). -/
theorem C2_counterexample :
    DType.isFloating .float16 = true ∧
    (applyOp (some .float32) ⟨[0], .float16, Device.cpu⟩ Device.cpu
      (fun u => .ok u)).snd =
      [.castDtype .float32, .callPrim, .castBack (some .float16) none] :=
  ⟨rfl, rfl⟩

/-- **C2** witness at an `int64` buffer. -/
theorem C2_witness :
    OpEvent.castDtype .float32 ∈
      (applyOp (some .float32) ⟨[3], .int64, Device.cpu⟩ Device.cpu
        (fun u => .ok u)).snd ∧
    (applyOp (some .float32) ⟨[3], .int64, Device.cpu⟩ Device.cpu
      (fun u => .ok u)).fst = .ok ⟨[3], .int64, Device.cpu⟩ := by
  have h := C2_apply_op_casting .float32 ⟨[3], .int64, Device.cpu⟩ Device.cpu
    (fun u => .ok u)
  refine ⟨h.1.mpr (by decide), ?_⟩
  have h2 := h.2 (by decide) ⟨[3], .float32, Device.cpu⟩ rfl
  simpa [Tensor.toDtype] using h2

/-- **C3** (corrected): when the backend primitive raises inside
`_apply_op`, the exception propagates and the reversal is NOT attempted —
there is no `try`/`finally` — so the trace contains no reversing cast and
ends at the primitive call.  (The caller still never observes a mutated
operand: `.to(...)` returns new tensors and the input is never written.) -/
theorem C3_no_reversal_on_failure (cd? : Option DType) (t : Tensor) (device : Device)
    (fn : Tensor → Except PyErr Tensor) (e : PyErr)
    (hfail : (applyOp cd? t device fn).fst = .error e) :
    (∀ odt odv, OpEvent.castBack odt odv ∉ (applyOp cd? t device fn).snd) ∧
    (applyOp cd? t device fn).snd.getLast? = some OpEvent.callPrim := by
  obtain ⟨dta, dt, dv⟩ := t
  rw [applyOp_eq] at hfail ⊢
  cases hres : fn ⟨dta, fwdDtype cd? dt, device⟩ with
  | ok r =>
    rw [hres] at hfail
    simp at hfail
  | error e2 =>
    constructor
    · intro odt odv
      by_cases hdev : dv = device <;>
        by_cases hc : didCast cd? dt <;>
          simp [hdev, hc]
    · by_cases hdev : dv = device <;>
        by_cases hc : didCast cd? dt <;>
          simp [hdev, hc]

/-- **C3** counterexample: with a failing primitive, `_apply_op` stops at
the call — the forward device move and dtype cast are never reversed. -/
theorem C3_counterexample :
    applyOp (some .float32) ⟨[5], .int64, Device.cuda⟩ Device.cpu
      (fun _ => .error .backendError) =
      (.error .backendError,
        [.castDevice Device.cpu, .castDtype .float32, .callPrim]) :=
  rfl

/-- **C3** witness at a concrete failing primitive. -/
theorem C3_witness :
    (applyOp (some .float32) ⟨[5], .int64, Device.cuda⟩ Device.cpu
      (fun _ => .error .backendError)).fst = .error .backendError ∧
    (∀ odt odv, OpEvent.castBack odt odv ∉
      (applyOp (some .float32) ⟨[5], .int64, Device.cuda⟩ Device.cpu
        (fun _ => .error .backendError)).snd) ∧
    (applyOp (some .float32) ⟨[5], .int64, Device.cuda⟩ Device.cpu
      (fun _ => .error .backendError)).snd.getLast? = some OpEvent.callPrim := by
  have h := C3_no_reversal_on_failure (some .float32) ⟨[5], .int64, Device.cuda⟩
    Device.cpu (fun _ => .error .backendError) .backendError rfl
  exact ⟨rfl, h.1, h.2⟩


/-! ## Claims C4 and C9: topology derivation -/

/-- **C4** (confirmed): on a fresh state `_setup_attrs` probes
`_compute_nproc_per_node` exactly when `world_size > 1` (the returned flag)
and short-circuits to `1` otherwise, then derives `nnodes = world_size //
nproc_per_node` and `node_rank = rank // nproc_per_node` by truncating
division; in particular `(8, npp 4) ↦ nnodes 2`, `rank 5 ↦ node_rank 1`,
and `(7, npp 4) ↦ nnodes 1`. -/
theorem C4_setup_attrs (ws rank probe : Nat) :
    setupAttrs ws rank probe ⟨none, none, none⟩ =
      (⟨some (if 1 < ws then probe else 1),
        some (ws / (if 1 < ws then probe else 1)),
        some (rank / (if 1 < ws then probe else 1))⟩,
       decide (1 < ws)) ∧
    (setupAttrs 8 5 4 ⟨none, none, none⟩).fst = ⟨some 4, some 2, some 1⟩ ∧
    (setupAttrs 7 0 4 ⟨none, none, none⟩).fst = ⟨some 4, some 1, some 0⟩ := by
  refine ⟨?_, rfl, rfl⟩
  by_cases h : 1 < ws <;> simp [setupAttrs, h]

/-- **C9** (confirmed): each topology field is written at most once — a
pre-supplied field survives `_setup_attrs` unchanged (and a pre-supplied
`_nproc_per_node` suppresses the probe), and re-running `_setup_attrs`
with any accessor values leaves a fully resolved state unchanged without
probing. -/
theorem C9_setup_attrs_write_once (ws rank probe ws2 rank2 probe2 : Nat)
    (s : TopoState) :
    (∀ v, s.nprocPerNode = some v →
      (setupAttrs ws rank probe s).fst.nprocPerNode = some v ∧
      (setupAttrs ws rank probe s).snd = false) ∧
    (∀ v, s.nnodes = some v → (setupAttrs ws rank probe s).fst.nnodes = some v) ∧
    (∀ v, s.node = some v → (setupAttrs ws rank probe s).fst.node = some v) ∧
    setupAttrs ws2 rank2 probe2 (setupAttrs ws rank probe s).fst =
      ((setupAttrs ws rank probe s).fst, false) := by
  obtain ⟨np, nn, nd⟩ := s
  cases np <;> cases nn <;> cases nd <;> simp [setupAttrs]

/-- **C9** witness: a pre-supplied `nproc_per_node = 3` survives and
suppresses the probe; a second run changes nothing. -/
theorem C9_witness :
    (setupAttrs 8 5 4 ⟨some 3, none, none⟩).fst.nprocPerNode = some 3 ∧
    (setupAttrs 8 5 4 ⟨some 3, none, none⟩).snd = false ∧
    setupAttrs 8 5 4 (setupAttrs 8 5 4 ⟨some 3, none, none⟩).fst =
      ((setupAttrs 8 5 4 ⟨some 3, none, none⟩).fst, false) := by
  have h := C9_setup_attrs_write_once 8 5 4 8 5 4 ⟨some 3, none, none⟩
  exact ⟨(h.1 3 rfl).1, (h.1 3 rfl).2, h.2.2.2⟩


/-! ## Claims C6, C7, C8 and C10: collective dispatch -/

/-- **C6** (confirmed): `all_reduce` rejects a `str` and any other
non-`Tensor`/non-`Number` operand (e.g. a mapping) with `TypeError`
synchronously; the event trace is empty — no encode, no cast, and in
particular no backend-primitive call ever happens. -/
theorem C6_all_reduce_rejects (cdtype : Option DType) (device : Device)
    (fn : Tensor → String → Except PyErr Tensor) (op : String) :
    (∀ s, allReduce cdtype device fn (.str s) op = (.error .typeError, [])) ∧
    allReduce cdtype device fn .mapping op = (.error .typeError, []) :=
  ⟨fun _ => rfl, rfl⟩

/-- **C7** (confirmed): the single-process `_SerialModel` returns every
operand unchanged from `all_reduce` and `broadcast`, and `all_gather`
wraps a number or string into a one-element list while returning a tensor
unchanged. -/
theorem C7_serial_identity :
    (∀ (x : Operand) (op : String), serialAllReduce x op = x) ∧
    (∀ x : Operand, serialBroadcast x 0 = x) ∧
    (∀ v : Int, serialAllGather (.num v) = .list [.num v]) ∧
    (∀ s : List Nat, serialAllGather (.str s) = .list [.str s]) ∧
    (∀ t : Tensor, serialAllGather (.tensor t) = .tensor t) :=
  ⟨fun _ _ => rfl, fun _ => rfl, fun _ => rfl, fun _ => rfl, fun _ => rfl⟩

theorem fwdDtype_self (cd : DType) : fwdDtype (some cd) cd = cd := by
  by_cases h : cd = .float32 ∨ cd = .float64 <;> simp [fwdDtype, h]

/-- **C8** (confirmed): `_collective_op` wraps a numeric operand as the
single-element buffer `⟨[v], cdtype, device⟩` (the hypothesis pins the
primitive's argument to exactly that tensor), and unwraps the primitive's
result to a scalar when it has exactly one element and to a list of
scalars otherwise — which is how a scalar all-gather over `n` ranks
returns an `n`-element sequence. -/
theorem C8_collective_scalar (cd : DType) (device : Device) (v : Int)
    (fn : Tensor → Except PyErr Tensor) (r : Tensor)
    (hfn : fn ⟨[v], cd, device⟩ = .ok r) :
    ∃ dt' : DType,
      (collectiveOp (some cd) device fn (.num v)).fst =
        if r.data.length = 1 then .ok (.num (r.data.headD 0) dt')
        else .ok (.nums r.data) := by
  by_cases hdt : cd = .float32 ∨ cd = .float64
  · refine ⟨r.dtype, ?_⟩
    simp only [collectiveOp, Option.getD_some, applyOp_eq, fwdDtype_self, hfn,
      didCast]
    simp [hdt]
    split <;> rfl
  · refine ⟨cd, ?_⟩
    simp only [collectiveOp, Option.getD_some, applyOp_eq, fwdDtype_self, hfn,
      didCast]
    simp [hdt, Tensor.toDtype]
    split <;> rfl


/-- **C8** witness: an emulated 3-rank scalar all-gather (the primitive
concatenates three copies) returns the 3-element sequence `[7, 7, 7]`. -/
theorem C8_witness :
    (fun t : Tensor => (Except.ok (⟨t.data ++ t.data ++ t.data, t.dtype, t.device⟩ :
        Tensor) : Except PyErr Tensor)) ⟨[7], .float32, Device.cpu⟩ =
      .ok ⟨[7, 7, 7], .float32, Device.cpu⟩ ∧
    ∃ dt' : DType,
      (collectiveOp (some .float32) Device.cpu
        (fun t => .ok ⟨t.data ++ t.data ++ t.data, t.dtype, t.device⟩)
        (.num 7)).fst =
        if ([7, 7, 7] : List Int).length = 1 then .ok (.num 7 dt')
        else .ok (.nums [7, 7, 7]) :=
  ⟨rfl, C8_collective_scalar .float32 Device.cpu 7
    (fun t => .ok ⟨t.data ++ t.data ++ t.data, t.dtype, t.device⟩)
    ⟨[7, 7, 7], .float32, Device.cpu⟩ rfl⟩

theorem fwdDtype_float32 (cd? : Option DType) : fwdDtype cd? .float32 = .float32 := by
  cases cd? <;> simp [fwdDtype]

theorem didCast_float32 (cd? : Option DType) : ¬ didCast cd? .float32 := by
  cases cd? <;> simp [didCast]

/-- **C10** (confirmed): `broadcast` puts a numeric operand on the wire as
a single-element `float32` tensor on both the `src` rank
(`torch.tensor([v], dtype=torch.float)`) and non-`src` ranks
(`torch.empty(1, dtype=torch.float)`), for every configured collective
dtype (which is never consulted: `float32` is already in
`{float32, float64}` so `_apply_op` does not recast), and returns
`tensor.item()` — a scalar read from a floating buffer, hence a Python
`float`, exact only for `float32`-representable values. -/
theorem C10_broadcast_number (cd? : Option DType) (device : Device) (rank : Nat)
    (junk : Int) (fn : Tensor → Nat → Except PyErr Tensor) (v : Int) (src : Nat)
    (r : Tensor)
    (hfn : fn ⟨[if rank = src then v else junk], .float32, device⟩ src = .ok r)
    (hr : r.data.length = 1) (hrdt : r.dtype = .float32) :
    (broadcast cd? device rank junk fn (.num v) src).fst =
      .ok (.num (r.data.headD 0) .float32) ∧
    DType.isFloating .float32 = true := by
  refine ⟨?_, rfl⟩
  by_cases hrs : rank = src
  · rw [if_pos hrs] at hfn
    simp only [broadcast, broadcastFinish, hrs, ne_eq, not_true_eq_false, if_false,
      ite_false]
    simp only [applyOp_eq, fwdDtype_float32, hfn]
    simp [didCast_float32, hr, hrdt]
  · rw [if_neg hrs] at hfn
    simp only [broadcast, broadcastFinish, ne_eq, hrs, not_false_eq_true, if_true,
      ite_true]
    simp only [applyOp_eq, fwdDtype_float32, hfn]
    simp [didCast_float32, hr, hrdt]

/-- **C10** witness: broadcasting the number 5 from rank 0 on rank 0 with
a configured `float64` collective dtype still travels as `float32` and
comes back as the floating scalar 5. -/
theorem C10_witness :
    ((fun u (_ : Nat) => (Except.ok u : Except PyErr Tensor))
        ⟨[5], .float32, Device.cpu⟩ 0 = .ok ⟨[5], .float32, Device.cpu⟩) ∧
    (broadcast (some .float64) Device.cpu 0 0 (fun u _ => .ok u)
      (.num 5) 0).fst = .ok (.num 5 .float32) ∧
    DType.isFloating .float32 = true := by
  have h := C10_broadcast_number (some .float64) Device.cpu 0 0
    (fun u _ => .ok u) 5 0 ⟨[5], .float32, Device.cpu⟩ rfl rfl rfl
  exact ⟨rfl, h.1, h.2⟩


end IgniteBase
